import Mathlib

/-!
Shallow embedding of the persistence core of the eventsourcing repository
(src/eventsourcing/postgres.py) and of the example domain model
(src/eventsourcing/examples/aggregate5/domainmodel.py).

Database tables are modelled as lists of rows; a transaction is a state
function that either commits an updated database state or rolls back to the
rows it started from.  UUIDs are modelled as natural numbers, byte payloads
as lists of naturals, timestamps as naturals.  SQL integer columns that the
code compares with Python ints are modelled as Int; SERIAL notification ids
as Nat.
-/

namespace EventSourcing

/-- A stored event as passed to and returned by the recorders
(eventsourcing.persistence.StoredEvent): originator id, caller-assigned
version, topic string and opaque byte payload. -/
structure StoredEvent where
  originator_id : Nat
  originator_version : Int
  topic : String
  state : List Nat
deriving DecidableEq, Repr

/-- A row of the application/process recorder events table: a StoredEvent
plus the SERIAL-assigned notification_id column
(PostgresApplicationRecorder.construct_create_table_statements). -/
structure NotificationRow where
  originator_id : Nat
  originator_version : Int
  topic : String
  state : List Nat
  notification_id : Nat
deriving DecidableEq, Repr

/-- A row of the tracking table (PostgresProcessRecorder): application name
and notification id, primary key on the pair. -/
structure TrackingRow where
  application_name : String
  notification_id : Nat
deriving DecidableEq, Repr

/-- The Tracking value passed in kwargs to insert_events
(eventsourcing.persistence.Tracking). -/
structure Tracking where
  application_name : String
  notification_id : Nat
deriving DecidableEq, Repr

/-! ## PostgresAggregateRecorder.select_events

The statement is built by conditionally appending WHERE clauses for gt and
lte, an ORDER BY originator_version ASC or DESC, and an optional LIMIT.  We
embed the semantics of the resulting SQL query over the events table. -/

/-- The WHERE condition of the select_events statement: originator_id
matches, and the conditionally appended version bounds hold. -/
def matchesSelect (originator_id : Nat) (gt lte : Option Int)
    (e : StoredEvent) : Bool :=
  e.originator_id == originator_id
    && (match gt with
        | none => true
        | some g => decide (g < e.originator_version))
    && (match lte with
        | none => true
        | some l => decide (e.originator_version ≤ l))

/-- ORDER BY originator_version ASC (desc = false) or DESC (desc = true). -/
def orderByVersion (desc : Bool) (rows : List StoredEvent) :
    List StoredEvent :=
  if desc = false then
    rows.mergeSort (fun a b => decide (a.originator_version ≤ b.originator_version))
  else
    rows.mergeSort (fun a b => decide (b.originator_version ≤ a.originator_version))

/-- PostgresAggregateRecorder.select_events: filter the events table by
originator id and the optional version bounds, order by version, apply the
optional LIMIT. -/
def select_events (table : List StoredEvent) (originator_id : Nat)
    (gt lte : Option Int) (desc : Bool) (limit : Option Nat) :
    List StoredEvent :=
  let rows := table.filter (matchesSelect originator_id gt lte)
  let rows := orderByVersion desc rows
  match limit with
  | none => rows
  | some n => rows.take n

/-! ## PostgresApplicationRecorder.select_notifications and max ids -/

/-- PostgresApplicationRecorder.select_notifications: rows with
notification_id >= start, ordered ascending by notification_id, LIMIT limit. -/
def select_notifications (table : List NotificationRow) (start limit : Nat) :
    List NotificationRow :=
  ((table.filter (fun r => decide (start ≤ r.notification_id))).mergeSort
      (fun a b => decide (a.notification_id ≤ b.notification_id))).take limit

/-- SELECT MAX(notification_id): none on an empty table (SQL NULL). -/
def sqlMaxNotificationId (table : List NotificationRow) : Option Nat :=
  (table.map (fun r => r.notification_id)).max?

/-- PostgresApplicationRecorder.max_notification_id: the query result with
the Python idiom fetchone()[0] or 0 turning NULL into 0. -/
def max_notification_id (table : List NotificationRow) : Nat :=
  (sqlMaxNotificationId table).getD 0

/-- SELECT MAX(notification_id) FROM tracking WHERE application_name = a. -/
def sqlMaxTrackingId (tracking : List TrackingRow)
    (application_name : String) : Option Nat :=
  ((tracking.filter (fun t => t.application_name == application_name)).map
      (fun t => t.notification_id)).max?

/-- PostgresProcessRecorder.max_tracking_id with the same or-0 idiom. -/
def max_tracking_id (tracking : List TrackingRow)
    (application_name : String) : Nat :=
  (sqlMaxTrackingId tracking application_name).getD 0

/-! ## Database state and the transactional insert path

PostgresProcessRecorder._insert_events runs inside one
datastore.transaction() scope: the event batch is inserted row by row
(cursor.executemany), then, when a tracking pair is supplied, the tracking
row is inserted by the same cursor.  Transaction.__exit__ commits when no
exception escaped the scope and rolls back otherwise.  A primary-key
violation raises an IntegrityError; PostgresAggregateRecorder.insert_events
maps IntegrityError to RecordConflictError and any other psycopg2.Error to
OperationalError after closing the thread's connection. -/

/-- Committed database state of one application/process recorder: the
events table, the tracking table, and the value of the SERIAL sequence
backing notification_id.  The sequence is non-transactional: it keeps its
advanced value even when the surrounding transaction rolls back. -/
structure DBState where
  events : List NotificationRow
  tracking : List TrackingRow
  next_notification_id : Nat
deriving DecidableEq, Repr

/-- Errors raised by the database driver inside the transaction:
a uniqueness-constraint violation (psycopg2.IntegrityError) or any other
low-level failure (other psycopg2.Error). -/
inductive PgError
  | uniqueViolation
  | otherError
deriving DecidableEq, Repr

/-- Whether the (originator_id, originator_version) primary key of a new row
collides with an existing events-table row. -/
def eventKeyTaken (events : List NotificationRow) (oid : Nat) (ver : Int) :
    Bool :=
  events.any (fun r => r.originator_id == oid && r.originator_version == ver)

/-- cursor.executemany of the insert-events statement: rows are inserted one
at a time; the first primary-key violation aborts the statement with an
IntegrityError, leaving the uncommitted partial state behind (it is the
transaction exit that rolls rows back; the sequence has already advanced). -/
def insertEventRows : DBState → List StoredEvent → Option PgError × DBState
  | db, [] => (none, db)
  | db, e :: rest =>
    if eventKeyTaken db.events e.originator_id e.originator_version then
      (some PgError.uniqueViolation, db)
    else
      insertEventRows
        { db with
          events := db.events ++
            [⟨e.originator_id, e.originator_version, e.topic, e.state,
              db.next_notification_id⟩],
          next_notification_id := db.next_notification_id + 1 }
        rest

/-- Whether the (application_name, notification_id) primary key of a new
tracking row collides with an existing tracking-table row. -/
def trackingKeyTaken (tracking : List TrackingRow) (app : String) (nid : Nat) :
    Bool :=
  tracking.any (fun t => t.application_name == app && t.notification_id == nid)

/-- PostgresProcessRecorder._insert_events: insert the batch through the
aggregate recorder path, then, when a tracking pair was supplied in kwargs,
insert the tracking row with the same cursor. -/
def processInsertBody (db : DBState) (batch : List StoredEvent)
    (tracking : Option Tracking) : Option PgError × DBState :=
  match insertEventRows db batch with
  | (some e, db1) => (some e, db1)
  | (none, db1) =>
    match tracking with
    | none => (none, db1)
    | some t =>
      if trackingKeyTaken db1.tracking t.application_name t.notification_id then
        (some PgError.uniqueViolation, db1)
      else
        (none,
          { db1 with
            tracking := db1.tracking ++
              [⟨t.application_name, t.notification_id⟩] })

/-- Transaction rollback: the events and tracking tables revert to the
state at transaction start; the SERIAL sequence keeps its advanced value. -/
def rollbackTo (db0 db1 : DBState) : DBState :=
  { events := db0.events, tracking := db0.tracking,
    next_notification_id := db1.next_notification_id }

/-! ## Connections, the datastore and the recorder-level insert_events -/

/-- Process-local state of one Connection object: identity of the physical
session, and the is_idle / is_closing / is_closed lifecycle flags
(threading.Event values and the psycopg2 closed attribute). -/
structure Connection where
  session_id : Nat
  is_idle : Bool
  is_closing : Bool
  is_closed : Bool
deriving DecidableEq, Repr

/-- The datastore's thread-id → Connection map (PostgresDatastore._connections). -/
def ConnMap := List (Nat × Connection)

/-- Dictionary lookup self._connections[thread_id] (KeyError modelled as none). -/
def lookupConn (conns : ConnMap) (tid : Nat) : Option Connection :=
  (List.find? (fun p => p.1 == tid) conns).map (fun p => p.2)

/-- Store a connection under a thread id, replacing any previous entry. -/
def storeConn (conns : ConnMap) (tid : Nat) (c : Connection) : ConnMap :=
  (tid, c) :: List.filter (fun p => !(p.1 == tid)) conns

/-- PostgresDatastore._create_connection: make a fresh connection and store
it in the map under the thread id.  The fresh physical session is supplied
by the environment (psycopg2.connect). -/
def _create_connection (conns : ConnMap) (tid : Nat) (fresh_session : Nat) :
    Connection × ConnMap :=
  let c : Connection :=
    { session_id := fresh_session, is_idle := false,
      is_closing := false, is_closed := false }
  (c, storeConn conns tid c)

/-- PostgresDatastore.transaction, the connection-acquisition part: reuse
the thread's stored connection unless it is missing, closing or closed, or
the pre-ping probe fails; otherwise create and store a fresh one.
ping_ok tells whether the SELECT 1 round trip would succeed on the stored
connection. -/
def transactionAcquire (conns : ConnMap) (tid : Nat) (pre_ping : Bool)
    (ping_ok : Bool) (fresh_session : Nat) : Connection × ConnMap :=
  match lookupConn conns tid with
  | none => _create_connection conns tid fresh_session
  | some c0 =>
    let c := { c0 with is_idle := false }
    if c.is_closing || c.is_closed then
      _create_connection conns tid fresh_session
    else if pre_ping then
      if ping_ok then (c, storeConn conns tid c)
      else _create_connection conns tid fresh_session
    else (c, storeConn conns tid c)

/-- PostgresDatastore.close_connection: pop the calling thread's connection
from the map (and close it); a missing entry is ignored. -/
def close_connection (conns : ConnMap) (tid : Nat) : ConnMap :=
  List.filter (fun p => !(p.1 == tid)) conns

/-- Recorder-level state: the committed database plus the datastore's
connection map. -/
structure SysState where
  db : DBState
  conns : ConnMap

/-- The error surface of insert_events: RecordConflictError or
OperationalError (eventsourcing.persistence). -/
inductive ESError
  | conflict
  | operational
deriving DecidableEq, Repr

/-- PostgresProcessRecorder.insert_events for a given calling thread:
run _insert_events inside a transaction scope (commit on success, rollback
on error), then map IntegrityError to RecordConflictError and any other
psycopg2.Error to OperationalError, closing the thread's connection only on
the OperationalError path.  fault injects a non-integrity low-level
failure (connectivity loss etc.) into the transaction body. -/
def insert_events (st : SysState) (tid : Nat) (batch : List StoredEvent)
    (tracking : Option Tracking) (fault : Bool) :
    Except ESError Unit × SysState :=
  let body :=
    if fault then (some PgError.otherError, st.db)
    else processInsertBody st.db batch tracking
  match body with
  | (none, db1) => (Except.ok (), { st with db := db1 })
  | (some PgError.uniqueViolation, db1) =>
    (Except.error ESError.conflict, { st with db := rollbackTo st.db db1 })
  | (some PgError.otherError, db1) =>
    (Except.error ESError.operational,
      { db := rollbackTo st.db db1, conns := close_connection st.conns tid })

/-! ## Transaction.__exit__

On scope exit: rollback if an exception escaped the body, commit otherwise;
in a finally block, set the connection's is_idle event.  The commit or
rollback call itself may raise (modelled by the commit_fails /
rollback_fails fault flags); the finally block still runs and the failure
propagates to the caller. -/

/-- Observable per-connection transaction state for the scope-exit model. -/
structure TxConn where
  committed : Bool
  rolled_back : Bool
  is_idle : Bool
deriving DecidableEq, Repr

/-- The try part of Transaction.__exit__: rollback when exc_type is set,
commit otherwise; either call may itself raise. -/
def tryCommitOrRollback (exc_occurred commit_fails rollback_fails : Bool)
    (c : TxConn) : Except Unit Unit × TxConn :=
  if exc_occurred then
    if rollback_fails then (Except.error (), c)
    else (Except.ok (), { c with rolled_back := true })
  else
    if commit_fails then (Except.error (), c)
    else (Except.ok (), { c with committed := true })

/-- Transaction.__exit__: the try part followed by the finally block
self.c.is_idle.set(), which runs on every path before control returns. -/
def transactionExit (exc_occurred commit_fails rollback_fails : Bool)
    (c : TxConn) : Except Unit Unit × TxConn :=
  let r := tryCommitOrRollback exc_occurred commit_fails rollback_fails c
  (r.1, { r.2 with is_idle := true })

/-! ## Connection.close and the expiry timer

Connection.close(timeout): cancel the timer, set is_closing, block on
is_idle.wait(timeout), then close the physical session.  close_on_timer
(the max_age timer callback) calls close() with no timeout, so its wait
blocks until the idle event is set.  The environment is summarised by
idle_at, the time at which the owning thread sets is_idle (none when it
never does). -/

/-- How the is_idle wait ended before the physical close. -/
inductive CloseOutcome
  | graceful
  | forced
deriving DecidableEq, Repr

/-- threading.Event.wait(timeout): returns when the event is set or, when a
timeout is given, when it elapses; with no timeout and an event that is
never set, it never returns (none). -/
def waitReturns (idle_at : Option Nat) (timeout : Option Nat) :
    Option CloseOutcome :=
  match idle_at, timeout with
  | some i, some t =>
    if i ≤ t then some CloseOutcome.graceful else some CloseOutcome.forced
  | some _, none => some CloseOutcome.graceful
  | none, some _ => some CloseOutcome.forced
  | none, none => none

/-- Final lifecycle flags of a connection whose close call returned. -/
structure ClosedSession where
  is_closing : Bool
  physically_closed : Bool
  outcome : CloseOutcome
deriving DecidableEq, Repr

/-- Connection.close(timeout): is_closing is set, then the physical close
runs unconditionally once the is_idle wait returns; if the wait never
returns, the physical close never happens. -/
def closeModel (idle_at timeout : Option Nat) : Option ClosedSession :=
  (waitReturns idle_at timeout).map
    (fun o => { is_closing := true, physically_closed := true, outcome := o })

/-- Connection.close_on_timer: the max_age timer callback calls close()
with no timeout argument. -/
def close_on_timer (idle_at : Option Nat) : Option ClosedSession :=
  closeModel idle_at none

/-! ## Factory.__init__

Reads the recognised environment keys.  dbname, host, user and password
raise EnvironmentError when absent; port falls back to "5432";
POSTGRES_CONN_MAX_AGE accepts absent or empty (no expiry) or a float
literal, raising EnvironmentError otherwise; POSTGRES_PRE_PING goes through
distutils strtobool, whose ValueError on an unrecognised value propagates
as is.  Float parsing is abstracted by the parse_float_ok oracle. -/

/-- Errors escaping Factory.__init__: EnvironmentError with a message, or
the uncaught ValueError raised by strtobool. -/
inductive FactoryError
  | environmentError (msg : String)
  | valueError
deriving DecidableEq, Repr

/-- Python str.lower, character by character. -/
def lowerString (s : String) : String :=
  String.mk (s.data.map Char.toLower)

/-- distutils.util.strtobool: 1 for truthy strings, 0 for falsy strings,
ValueError otherwise. -/
def strtobool (s : String) : Except Unit Bool :=
  let v := lowerString s
  if v == "y" || v == "yes" || v == "t" || v == "true" || v == "on" || v == "1" then
    Except.ok true
  else if v == "n" || v == "no" || v == "f" || v == "false" || v == "off" || v == "0" then
    Except.ok false
  else Except.error ()

/-- The datastore configuration assembled by Factory.__init__
(the arguments it passes to PostgresDatastore).  conn_max_age keeps the
raw validated string (none for absent or empty). -/
structure DatastoreConfig where
  dbname : String
  host : String
  port : String
  user : String
  password : String
  conn_max_age : Option String
  pre_ping : Bool
deriving DecidableEq, Repr

/-- Environment key for the database name. -/
def POSTGRES_DBNAME : String := "POSTGRES_DBNAME"

/-- Environment key for the database host. -/
def POSTGRES_HOST : String := "POSTGRES_HOST"

/-- Environment key for the database port. -/
def POSTGRES_PORT : String := "POSTGRES_PORT"

/-- Environment key for the database user. -/
def POSTGRES_USER : String := "POSTGRES_USER"

/-- Environment key for the database password. -/
def POSTGRES_PASSWORD : String := "POSTGRES_PASSWORD"

/-- Environment key for the connection max age. -/
def POSTGRES_CONN_MAX_AGE : String := "POSTGRES_CONN_MAX_AGE"

/-- Environment key for the pre-ping flag. -/
def POSTGRES_PRE_PING : String := "POSTGRES_PRE_PING"

/-- Factory.__init__: checks performed in source order.  parse_float_ok
abstracts Python float() acceptance of a string; env is self.getenv. -/
def factoryInit (parse_float_ok : String → Bool)
    (env : String → Option String) : Except FactoryError DatastoreConfig :=
  match env POSTGRES_DBNAME with
  | none => Except.error (FactoryError.environmentError
      "Postgres database name not found in environment")
  | some dbname =>
    match env POSTGRES_HOST with
    | none => Except.error (FactoryError.environmentError
        "Postgres host not found in environment")
    | some host =>
      let port := (env POSTGRES_PORT).getD "5432"
      match env POSTGRES_USER with
      | none => Except.error (FactoryError.environmentError
          "Postgres user not found in environment")
      | some user =>
        match env POSTGRES_PASSWORD with
        | none => Except.error (FactoryError.environmentError
            "Postgres password not found in environment")
        | some password =>
          let maxAgeStep : Except FactoryError (Option String) :=
            match env POSTGRES_CONN_MAX_AGE with
            | none => Except.ok none
            | some s =>
              if s == "" then Except.ok none
              else if parse_float_ok s then Except.ok (some s)
              else Except.error (FactoryError.environmentError
                  "Postgres environment value for conn max age is invalid")
          match maxAgeStep with
          | Except.error e => Except.error e
          | Except.ok conn_max_age =>
            match strtobool ((env POSTGRES_PRE_PING).getD "no") with
            | Except.error _ => Except.error FactoryError.valueError
            | Except.ok pre_ping =>
              Except.ok
                { dbname := dbname, host := host, port := port,
                  user := user, password := password,
                  conn_max_age := conn_max_age, pre_ping := pre_ping }

/-! ## Dog aggregate (examples/aggregate5/domainmodel.py)

Frozen dataclasses become plain Lean structures; datetime values are
modelled as naturals, UUIDs as naturals.  The Snapshot event class lives in
eventsourcing.domain outside this repository; its state mapping is modelled
from the fields Dog.mutate reads out of it. -/

/-- The Dog aggregate: the Aggregate base fields plus name and tricks. -/
structure Dog where
  id : Nat
  version : Int
  created_on : Nat
  modified_on : Nat
  name : String
  tricks : List String
deriving DecidableEq, Repr

/-- The state dictionary carried by a Snapshot event, as read by Dog.mutate
(tricks come back from JSON as a list). -/
structure SnapshotState where
  id : Nat
  version : Int
  created_on : Nat
  modified_on : Nat
  name : String
  tricks : List String
deriving DecidableEq, Repr

/-- The events Dog.mutate dispatches on: Dog.Registered, Dog.TrickAdded
(each a DomainEvent with originator_id, originator_version, timestamp plus
their own field) and Snapshot. -/
inductive DogEvent
  | registered (originator_id : Nat) (originator_version : Int)
      (timestamp : Nat) (name : String)
  | trickAdded (originator_id : Nat) (originator_version : Int)
      (timestamp : Nat) (trick : String)
  | snapshot (state : SnapshotState)
deriving DecidableEq, Repr

/-- Dog.mutate: pure event-to-state reducer.  The TrickAdded branch asserts
the aggregate is present (assert aggregate is not None); the assertion
failure is modelled as none. -/
def Dog.mutate (event : DogEvent) (aggregate : Option Dog) : Option Dog :=
  match event with
  | DogEvent.registered oid over ts name =>
    some { id := oid, version := over, created_on := ts, modified_on := ts,
           name := name, tricks := [] }
  | DogEvent.trickAdded _ over ts trick =>
    match aggregate with
    | none => none
    | some a =>
      some { id := a.id, version := over, created_on := a.created_on,
             modified_on := ts, name := a.name,
             tricks := a.tricks ++ [trick] }
  | DogEvent.snapshot s =>
    some { id := s.id, version := s.version, created_on := s.created_on,
           modified_on := s.modified_on, name := s.name, tricks := s.tricks }

/-! ## Keys used by the uniqueness invariants -/

/-- The (originator_id, originator_version) primary key of an events row. -/
def eventKey (r : NotificationRow) : Nat × Int :=
  (r.originator_id, r.originator_version)

/-- The (originator_id, originator_version) key of a StoredEvent to insert. -/
def storedKey (e : StoredEvent) : Nat × Int :=
  (e.originator_id, e.originator_version)

/-- Whether a supplied tracking pair collides with the tracking table as it
stood at transaction start. -/
def trackingConflicts (db : DBState) (tracking : Option Tracking) : Bool :=
  match tracking with
  | none => false
  | some t => trackingKeyTaken db.tracking t.application_name t.notification_id

end EventSourcing

namespace EventSourcing

/-! ## Helper lemmas -/

theorem lookupConn_storeConn (conns : ConnMap) (tid : Nat) (c : Connection) :
    lookupConn (storeConn conns tid c) tid = some c := by
  simp [lookupConn, storeConn, List.find?]

theorem lookupConn_close_connection (conns : ConnMap) (tid : Nat) :
    lookupConn (close_connection conns tid) tid = none := by
  have hfind : List.find? (fun p => p.1 == tid)
      (List.filter (fun p => !(p.1 == tid)) conns) = none := by
    rw [List.find?_eq_none]
    intro x hx
    have hpx := List.of_mem_filter hx
    simpa using hpx
  simp [lookupConn, close_connection, hfind]

/-! ## Claim theorems -/

/-- Claim C10: for every Dog aggregate and TrickAdded event, Dog.mutate
returns a new Dog with id, created_on and name unchanged, version equal to
the event's originator_version, modified_on equal to the event's timestamp,
and the event's trick appended at the end of the tricks tuple; the input
aggregate (a frozen record, and a pure value in this embedding) is not
mutated. -/
theorem dog_mutate_trickAdded (a : Dog) (oid : Nat) (over : Int) (ts : Nat)
    (trick : String) :
    ∃ d, Dog.mutate (DogEvent.trickAdded oid over ts trick) (some a) = some d ∧
      d.id = a.id ∧ d.created_on = a.created_on ∧ d.name = a.name ∧
      d.version = over ∧ d.modified_on = ts ∧
      d.tricks = a.tricks ++ [trick] := by
  exact ⟨_, rfl, rfl, rfl, rfl, rfl, rfl, rfl⟩

/-- Claim C4: on every transaction scope exit the connection is marked idle
before control returns, even when the commit or rollback call itself
raises; the transaction is committed exactly when no exception occurred and
the commit call succeeds, and rolled back exactly when an exception
occurred and the rollback call succeeds; a failing commit or rollback
propagates as an error. -/
theorem transaction_exit_spec (exc_occurred commit_fails rollback_fails : Bool)
    (c : TxConn) :
    (transactionExit exc_occurred commit_fails rollback_fails c).2.is_idle = true ∧
    (transactionExit exc_occurred commit_fails rollback_fails c).2.committed =
      (c.committed || (!exc_occurred && !commit_fails)) ∧
    (transactionExit exc_occurred commit_fails rollback_fails c).2.rolled_back =
      (c.rolled_back || (exc_occurred && !rollback_fails)) ∧
    ((transactionExit exc_occurred commit_fails rollback_fails c).1 = Except.ok () ↔
      (if exc_occurred then rollback_fails else commit_fails) = false) := by
  cases exc_occurred <;> cases commit_fails <;> cases rollback_fails <;>
    simp [transactionExit, tryCommitOrRollback]

/-- Claim C3 counterexample: an environment supplying dbname, host, user
and password but no port is accepted by Factory.__init__, which silently
defaults the port to "5432" instead of failing fast, contradicting the
claim that the port setting is required. -/
theorem factory_port_silently_defaults :
    factoryInit (fun _ => true)
      (fun k =>
        if k == "POSTGRES_DBNAME" then some "db"
        else if k == "POSTGRES_HOST" then some "h"
        else if k == "POSTGRES_USER" then some "u"
        else if k == "POSTGRES_PASSWORD" then some "p"
        else none) =
    Except.ok
      { dbname := "db", host := "h", port := "5432", user := "u",
        password := "p", conn_max_age := none, pre_ping := false } := by
  rfl

/-- Claim C3 (amended): construction fails fast with a configuration error
when the database name, host, user or password is absent from the
environment, and never silently defaults any of those four fields; the
port, by contrast, defaults to "5432" when absent. -/
theorem factory_required_settings (pf : String → Bool)
    (env : String → Option String)
    (hmiss : env POSTGRES_DBNAME = none ∨ env POSTGRES_HOST = none ∨
      env POSTGRES_USER = none ∨ env POSTGRES_PASSWORD = none) :
    (∃ msg, factoryInit pf env =
        Except.error (FactoryError.environmentError msg)) ∧
    (∀ pf2 env2 cfg, factoryInit pf2 env2 = Except.ok cfg →
      env2 POSTGRES_DBNAME = some cfg.dbname ∧
      env2 POSTGRES_HOST = some cfg.host ∧
      env2 POSTGRES_USER = some cfg.user ∧
      env2 POSTGRES_PASSWORD = some cfg.password ∧
      (env2 POSTGRES_PORT = none → cfg.port = "5432")) := by
  constructor
  · rcases hmiss with h | h | h | h
    · exact ⟨"Postgres database name not found in environment",
        by simp [factoryInit, h]⟩
    · cases hd : env POSTGRES_DBNAME with
      | none => exact ⟨"Postgres database name not found in environment",
          by simp [factoryInit, hd]⟩
      | some dbname => exact ⟨"Postgres host not found in environment",
          by simp [factoryInit, hd, h]⟩
    · cases hd : env POSTGRES_DBNAME with
      | none => exact ⟨"Postgres database name not found in environment",
          by simp [factoryInit, hd]⟩
      | some dbname =>
        cases hh : env POSTGRES_HOST with
        | none => exact ⟨"Postgres host not found in environment",
            by simp [factoryInit, hd, hh]⟩
        | some host => exact ⟨"Postgres user not found in environment",
            by simp [factoryInit, hd, hh, h]⟩
    · cases hd : env POSTGRES_DBNAME with
      | none => exact ⟨"Postgres database name not found in environment",
          by simp [factoryInit, hd]⟩
      | some dbname =>
        cases hh : env POSTGRES_HOST with
        | none => exact ⟨"Postgres host not found in environment",
            by simp [factoryInit, hd, hh]⟩
        | some host =>
          cases hu : env POSTGRES_USER with
          | none => exact ⟨"Postgres user not found in environment",
              by simp [factoryInit, hd, hh, hu]⟩
          | some user => exact ⟨"Postgres password not found in environment",
              by simp [factoryInit, hd, hh, hu, h]⟩
  · intro pf2 env2 cfg hok
    cases hd : env2 POSTGRES_DBNAME with
    | none => simp [factoryInit, hd] at hok
    | some dbname =>
      cases hh : env2 POSTGRES_HOST with
      | none => simp [factoryInit, hd, hh] at hok
      | some host =>
        cases hu : env2 POSTGRES_USER with
        | none => simp [factoryInit, hd, hh, hu] at hok
        | some user =>
          cases hp : env2 POSTGRES_PASSWORD with
          | none => simp [factoryInit, hd, hh, hu, hp] at hok
          | some password =>
            simp only [factoryInit, hd, hh, hu, hp] at hok
            cases hma : env2 POSTGRES_CONN_MAX_AGE with
            | none =>
              simp only [hma] at hok
              cases hsb : strtobool ((env2 POSTGRES_PRE_PING).getD "no") with
              | error e => simp [hsb] at hok
              | ok b =>
                simp only [hsb, Except.ok.injEq] at hok
                subst hok
                refine ⟨?_, ?_, ?_, ?_, fun hpo => by rw [hpo]; rfl⟩ <;> simp [hd, hh, hu, hp]
            | some s =>
              simp only [hma] at hok
              by_cases hse : s == ""
              · simp only [hse, if_pos] at hok
                cases hsb : strtobool ((env2 POSTGRES_PRE_PING).getD "no") with
                | error e => simp [hsb] at hok
                | ok b =>
                  simp only [hsb, Except.ok.injEq] at hok
                  subst hok
                  refine ⟨?_, ?_, ?_, ?_, fun hpo => by rw [hpo]; rfl⟩ <;> simp [hd, hh, hu, hp]
              · simp only [hse, if_neg, Bool.false_eq_true, not_false_iff] at hok
                by_cases hpf : pf2 s
                · simp only [hpf, if_pos] at hok
                  cases hsb : strtobool ((env2 POSTGRES_PRE_PING).getD "no") with
                  | error e => simp [hsb] at hok
                  | ok b =>
                    simp only [hsb, Except.ok.injEq] at hok
                    subst hok
                    refine ⟨?_, ?_, ?_, ?_, fun hpo => by rw [hpo]; rfl⟩ <;> simp [hd, hh, hu, hp]
                · simp [hpf] at hok

/-- Claim C3 amended witness: with an empty environment, construction fails
with an environment error. -/
theorem factory_required_settings_witness :
    ∃ msg, factoryInit (fun _ => true) (fun _ => none) =
      Except.error (FactoryError.environmentError msg) :=
  (factory_required_settings (fun _ => true) (fun _ => none) (Or.inl rfl)).1

/-- Claim C5 counterexample: the max_age timer callback close_on_timer
calls close() with no timeout, so when the owning thread never signals idle
the is_idle wait blocks forever and the physical close never happens; the
session is not eventually closed, contradicting the claim's conclusion. -/
theorem close_on_timer_never_closes :
    ¬ ∃ s, close_on_timer none = some s ∧ s.physically_closed = true := by
  simp [close_on_timer, closeModel, waitReturns]

/-- Claim C5 (amended): close sets is_closing and performs the physical
close as soon as the is_idle wait returns: gracefully when the idle signal
arrives within the timeout (or there is no timeout), forcibly when a given
timeout elapses first.  The session is therefore eventually closed whenever
a timeout is given or the idle signal eventually arrives; on the timer path
(close_on_timer passes no timeout) it is closed exactly when the owning
thread eventually signals idle. -/
theorem connection_close_amended (idle_at timeout : Option Nat)
    (h : idle_at ≠ none ∨ timeout ≠ none) :
    (∃ s, closeModel idle_at timeout = some s ∧ s.physically_closed = true ∧
      s.is_closing = true) ∧
    (∀ i t, i ≤ t → closeModel (some i) (some t) =
      some ⟨true, true, CloseOutcome.graceful⟩) ∧
    (∀ i t, t < i → closeModel (some i) (some t) =
      some ⟨true, true, CloseOutcome.forced⟩) ∧
    (∀ i, close_on_timer (some i) =
      some ⟨true, true, CloseOutcome.graceful⟩) ∧
    close_on_timer none = none := by
  refine ⟨?_, ?_, ?_, ?_, rfl⟩
  · cases idle_at with
    | none =>
      cases timeout with
      | none => simp at h
      | some t => exact ⟨_, rfl, rfl, rfl⟩
    | some i =>
      cases timeout with
      | none => exact ⟨_, rfl, rfl, rfl⟩
      | some t =>
        by_cases hle : i ≤ t
        · exact ⟨⟨true, true, CloseOutcome.graceful⟩,
            by simp [closeModel, waitReturns, hle], rfl, rfl⟩
        · exact ⟨⟨true, true, CloseOutcome.forced⟩,
            by simp [closeModel, waitReturns, hle], rfl, rfl⟩
  · intro i t hle
    simp [closeModel, waitReturns, hle]
  · intro i t hlt
    simp [closeModel, waitReturns, Nat.not_le_of_lt hlt]
  · intro i
    rfl

/-- Claim C5 amended witness: a connection whose owner signals idle at time
0 while close waits with no timeout is closed gracefully. -/
theorem connection_close_amended_witness :
    ∃ s, closeModel (some 0) none = some s ∧ s.physically_closed = true ∧
      s.is_closing = true :=
  (connection_close_amended (some 0) none (Or.inl (by simp))).1

/-- Claim C9: acquiring a transaction creates and stores a fresh connection
when the thread has none stored or the stored one is closing or closed, or
when pre-ping is enabled and the probe fails; otherwise the stored
connection is reused (with its idle event cleared). -/
theorem transaction_acquire_spec (conns : ConnMap) (tid : Nat)
    (pre_ping ping_ok : Bool) (fresh : Nat) :
    (lookupConn conns tid = none →
      (transactionAcquire conns tid pre_ping ping_ok fresh).1 =
        ⟨fresh, false, false, false⟩ ∧
      lookupConn (transactionAcquire conns tid pre_ping ping_ok fresh).2 tid =
        some ⟨fresh, false, false, false⟩) ∧
    (∀ c, lookupConn conns tid = some c →
      (c.is_closing || c.is_closed) = true →
      (transactionAcquire conns tid pre_ping ping_ok fresh).1 =
        ⟨fresh, false, false, false⟩ ∧
      lookupConn (transactionAcquire conns tid pre_ping ping_ok fresh).2 tid =
        some ⟨fresh, false, false, false⟩) ∧
    (∀ c, lookupConn conns tid = some c →
      (c.is_closing || c.is_closed) = false →
      pre_ping = true → ping_ok = false →
      (transactionAcquire conns tid pre_ping ping_ok fresh).1 =
        ⟨fresh, false, false, false⟩ ∧
      lookupConn (transactionAcquire conns tid pre_ping ping_ok fresh).2 tid =
        some ⟨fresh, false, false, false⟩) ∧
    (∀ c, lookupConn conns tid = some c →
      (c.is_closing || c.is_closed) = false →
      (pre_ping = false ∨ ping_ok = true) →
      (transactionAcquire conns tid pre_ping ping_ok fresh).1 =
        { c with is_idle := false } ∧
      lookupConn (transactionAcquire conns tid pre_ping ping_ok fresh).2 tid =
        some { c with is_idle := false }) := by
  refine ⟨?_, ?_, ?_, ?_⟩
  · intro hnone
    simp [transactionAcquire, hnone, _create_connection, lookupConn_storeConn]
  · intro c hc hflags
    have h1 : ({ c with is_idle := false } : Connection).is_closing = c.is_closing := rfl
    have h2 : ({ c with is_idle := false } : Connection).is_closed = c.is_closed := rfl
    simp [transactionAcquire, hc, _create_connection, lookupConn_storeConn,
      h1, h2, hflags]
  · intro c hc hflags hpp hpk
    subst hpp; subst hpk
    simp only [transactionAcquire, hc]
    have hcl : (({ c with is_idle := false } : Connection).is_closing ||
        ({ c with is_idle := false } : Connection).is_closed) = false := hflags
    simp [hcl, _create_connection, lookupConn_storeConn]
  · intro c hc hflags hreuse
    simp only [transactionAcquire, hc]
    have hcl : (({ c with is_idle := false } : Connection).is_closing ||
        ({ c with is_idle := false } : Connection).is_closed) = false := hflags
    rcases hreuse with hpp | hpk
    · subst hpp
      simp [hcl, lookupConn_storeConn]
    · subst hpk
      by_cases hpp : pre_ping <;> simp [hcl, hpp, lookupConn_storeConn]

/-- Claim C9 witness: a thread with no stored connection gets the fresh
connection, which is then stored for it. -/
theorem transaction_acquire_spec_witness :
    (transactionAcquire [] 0 false false 7).1 = ⟨7, false, false, false⟩ ∧
    lookupConn (transactionAcquire [] 0 false false 7).2 0 =
      some ⟨7, false, false, false⟩ :=
  (transaction_acquire_spec [] 0 false false 7).1 rfl

/-- Claim C8: max_notification_id returns 0 on an empty events table and
the highest committed notification id otherwise; max_tracking_id returns 0
when no tracking row exists for the application name and the highest
notification id recorded for it otherwise. -/
theorem max_ids_spec (events : List NotificationRow)
    (tracking : List TrackingRow) (app : String) :
    (events = [] → max_notification_id events = 0) ∧
    (events ≠ [] →
      (∃ r ∈ events, r.notification_id = max_notification_id events) ∧
      ∀ r ∈ events, r.notification_id ≤ max_notification_id events) ∧
    ((∀ t ∈ tracking, t.application_name ≠ app) →
      max_tracking_id tracking app = 0) ∧
    ((∃ t ∈ tracking, t.application_name = app) →
      (∃ t ∈ tracking, t.application_name = app ∧
        t.notification_id = max_tracking_id tracking app) ∧
      ∀ t ∈ tracking, t.application_name = app →
        t.notification_id ≤ max_tracking_id tracking app) := by
  refine ⟨?_, ?_, ?_, ?_⟩
  · intro he
    subst he
    rfl
  · intro hne
    have hmapne : events.map (fun r => r.notification_id) ≠ [] := by
      simpa using hne
    cases hmax : (events.map (fun r => r.notification_id)).max? with
    | none => exact absurd (List.max?_eq_none_iff.mp hmax) hmapne
    | some m =>
      have hres : max_notification_id events = m := by
        simp [max_notification_id, sqlMaxNotificationId, hmax]
      have hmem : m ∈ events.map (fun r => r.notification_id) :=
        List.max?_mem (fun a b => max_choice a b) hmax
      have hub : ∀ b ∈ events.map (fun r => r.notification_id), b ≤ m :=
        (List.max?_le_iff (fun a b c => max_le_iff) hmax).mp le_rfl
      constructor
      · rcases List.mem_map.mp hmem with ⟨r, hr, hrid⟩
        exact ⟨r, hr, by rw [hrid, hres]⟩
      · intro r hr
        rw [hres]
        exact hub _ (List.mem_map.mpr ⟨r, hr, rfl⟩)
  · intro hnone
    have hfil : tracking.filter (fun t => t.application_name == app) = [] := by
      rw [List.filter_eq_nil_iff]
      intro t ht
      simpa using hnone t ht
    simp [max_tracking_id, sqlMaxTrackingId, hfil]
  · intro hex
    rcases hex with ⟨t0, ht0, happ0⟩
    have hmemfil : t0 ∈ tracking.filter (fun t => t.application_name == app) :=
      List.mem_filter.mpr ⟨ht0, by simp [happ0]⟩
    have hmapne :
        (tracking.filter (fun t => t.application_name == app)).map
          (fun t => t.notification_id) ≠ [] := by
      simp only [ne_eq, List.map_eq_nil_iff]
      intro hnil
      rw [hnil] at hmemfil
      exact List.not_mem_nil t0 hmemfil
    cases hmax : ((tracking.filter (fun t => t.application_name == app)).map
        (fun t => t.notification_id)).max? with
    | none => exact absurd (List.max?_eq_none_iff.mp hmax) hmapne
    | some m =>
      have hres : max_tracking_id tracking app = m := by
        simp [max_tracking_id, sqlMaxTrackingId, hmax]
      have hmem := List.max?_mem (fun a b => max_choice a b) hmax
      have hub := (List.max?_le_iff (fun a b c => max_le_iff) hmax).mp
        (le_refl m)
      constructor
      · rcases List.mem_map.mp hmem with ⟨t, htf, htid⟩
        rcases List.mem_filter.mp htf with ⟨htm, happ⟩
        exact ⟨t, htm, by simpa using happ, by rw [htid, hres]⟩
      · intro t htm happ
        rw [hres]
        exact hub _ (List.mem_map.mpr
          ⟨t, List.mem_filter.mpr ⟨htm, by simp [happ]⟩, rfl⟩)

/-- Claim C8 witness: a two-row events table and a one-row tracking table
realise the maxima. -/
theorem max_ids_spec_witness :
    ∃ r ∈ [(⟨1, 1, "T", [], 1⟩ : NotificationRow), ⟨1, 2, "T", [], 2⟩],
      r.notification_id =
        max_notification_id [⟨1, 1, "T", [], 1⟩, ⟨1, 2, "T", [], 2⟩] :=
  ((max_ids_spec [⟨1, 1, "T", [], 1⟩, ⟨1, 2, "T", [], 2⟩]
      [⟨"app", 5⟩] "app").2.1 (by simp)).1

/-- The ORDER BY comparator for select_events is transitive and total, and
ordering preserves membership (it is a permutation). -/
theorem orderByVersion_perm (desc : Bool) (rows : List StoredEvent) :
    (orderByVersion desc rows).Perm rows := by
  cases desc <;> simp [orderByVersion] <;> exact List.mergeSort_perm rows _

/-- Claim C6: select_events returns exactly the stored events of the given
originator within the supplied version bounds, ordered by version ascending
by default or descending on request, truncated to the limit when one is
supplied, and empty when nothing matches. -/
theorem select_events_spec (table : List StoredEvent) (oid : Nat)
    (gt lte : Option Int) (desc : Bool) (limit : Option Nat) :
    (∀ e ∈ select_events table oid gt lte desc limit,
      e ∈ table ∧ e.originator_id = oid ∧
      (∀ g, gt = some g → g < e.originator_version) ∧
      (∀ l, lte = some l → e.originator_version ≤ l)) ∧
    (limit = none → ∀ e ∈ table, matchesSelect oid gt lte e = true →
      e ∈ select_events table oid gt lte desc limit) ∧
    (desc = false → List.Sorted (fun a b : StoredEvent =>
      a.originator_version ≤ b.originator_version)
      (select_events table oid gt lte desc limit)) ∧
    (desc = true → List.Sorted (fun a b : StoredEvent =>
      b.originator_version ≤ a.originator_version)
      (select_events table oid gt lte desc limit)) ∧
    (∀ n, limit = some n →
      select_events table oid gt lte desc limit =
        (select_events table oid gt lte desc none).take n ∧
      (select_events table oid gt lte desc limit).length ≤ n) ∧
    ((∀ e ∈ table, matchesSelect oid gt lte e = false) →
      select_events table oid gt lte desc limit = []) := by
  have hperm := orderByVersion_perm desc (table.filter (matchesSelect oid gt lte))
  have hsub : select_events table oid gt lte desc limit ⊆
      orderByVersion desc (table.filter (matchesSelect oid gt lte)) := by
    cases limit with
    | none => exact fun x hx => hx
    | some n => exact List.take_subset n _
  refine ⟨?_, ?_, ?_, ?_, ?_, ?_⟩
  · intro e he
    have hef : e ∈ table.filter (matchesSelect oid gt lte) :=
      hperm.mem_iff.mp (hsub he)
    obtain ⟨het, hm⟩ := List.mem_filter.mp hef
    simp only [matchesSelect, Bool.and_eq_true, beq_iff_eq] at hm
    obtain ⟨⟨h1, h2⟩, h3⟩ := hm
    refine ⟨het, h1, ?_, ?_⟩
    · intro g hg
      subst hg
      simpa using h2
    · intro l hl
      subst hl
      simpa using h3
  · intro hlim e het hm
    subst hlim
    exact hperm.mem_iff.mpr (List.mem_filter.mpr ⟨het, hm⟩)
  · intro hdesc
    subst hdesc
    have hsorted : List.Pairwise (fun a b : StoredEvent =>
        decide (a.originator_version ≤ b.originator_version) = true)
        (orderByVersion false (table.filter (matchesSelect oid gt lte))) := by
      simp only [orderByVersion, if_pos]
      refine List.sorted_mergeSort ?_ ?_ _
      · intro a b c hab hbc
        exact decide_eq_true
          (le_trans (of_decide_eq_true hab) (of_decide_eq_true hbc))
      · intro a b
        rcases le_total a.originator_version b.originator_version with h | h <;>
          simp [h]
    have hres : List.Pairwise (fun a b : StoredEvent =>
        decide (a.originator_version ≤ b.originator_version) = true)
        (select_events table oid gt lte false limit) := by
      cases limit with
      | none => exact hsorted
      | some n => exact hsorted.sublist (List.take_sublist n _)
    exact hres.imp (fun h => of_decide_eq_true h)
  · intro hdesc
    subst hdesc
    have hsorted : List.Pairwise (fun a b : StoredEvent =>
        decide (b.originator_version ≤ a.originator_version) = true)
        (orderByVersion true (table.filter (matchesSelect oid gt lte))) := by
      simp only [orderByVersion, if_neg, Bool.true_eq_false, not_false_iff]
      refine List.sorted_mergeSort ?_ ?_ _
      · intro a b c hab hbc
        exact decide_eq_true
          (le_trans (of_decide_eq_true hbc) (of_decide_eq_true hab))
      · intro a b
        rcases le_total a.originator_version b.originator_version with h | h <;>
          simp [h]
    have hres : List.Pairwise (fun a b : StoredEvent =>
        decide (b.originator_version ≤ a.originator_version) = true)
        (select_events table oid gt lte true limit) := by
      cases limit with
      | none => exact hsorted
      | some n => exact hsorted.sublist (List.take_sublist n _)
    exact hres.imp (fun h => of_decide_eq_true h)
  · intro n hlim
    subst hlim
    constructor
    · rfl
    · calc (select_events table oid gt lte desc (some n)).length
          = min n (orderByVersion desc
              (table.filter (matchesSelect oid gt lte))).length := by
            simp [select_events]
        _ ≤ n := Nat.min_le_left _ _
  · intro hnomatch
    have hfil : table.filter (matchesSelect oid gt lte) = [] :=
      List.filter_eq_nil_iff.mpr (fun e he => by simp [hnomatch e he])
    have hnil : orderByVersion desc (table.filter (matchesSelect oid gt lte)) = [] :=
      List.Perm.eq_nil (hfil ▸ hperm)
    cases limit with
    | none => exact hnil
    | some n => simp [select_events] at hnil ⊢; simp [hnil]

/-- Claim C6 witness: for an aggregate with versions 1..5, gt=1 and lte=3
select the range and, with no limit, version 2 is returned. -/
theorem select_events_spec_witness :
    (⟨9, 2, "T", []⟩ : StoredEvent) ∈
      select_events [⟨9, 1, "T", []⟩, ⟨9, 2, "T", []⟩, ⟨9, 3, "T", []⟩,
        ⟨9, 4, "T", []⟩, ⟨9, 5, "T", []⟩] 9 (some 1) (some 3) false none :=
  (select_events_spec [⟨9, 1, "T", []⟩, ⟨9, 2, "T", []⟩, ⟨9, 3, "T", []⟩,
    ⟨9, 4, "T", []⟩, ⟨9, 5, "T", []⟩] 9 (some 1) (some 3) false none).2.1
    rfl ⟨9, 2, "T", []⟩ (by simp) (by decide)

/-- Helper: on a list sorted ascending by notification id, every member's
id is bounded by the last element's id. -/
theorem sorted_le_getLast (l : List NotificationRow)
    (hs : List.Sorted (fun a b : NotificationRow =>
      a.notification_id ≤ b.notification_id) l)
    (hne : l ≠ []) (x : NotificationRow) (hx : x ∈ l) :
    x.notification_id ≤ (l.getLast hne).notification_id := by
  induction l with
  | nil => exact absurd rfl hne
  | cons a rest ih =>
    cases rest with
    | nil =>
      have hxa : x = a := by simpa using hx
      subst hxa
      simp [List.getLast]
    | cons b rest2 =>
      rw [List.getLast_cons (List.cons_ne_nil b rest2)]
      rcases List.mem_cons.mp hx with hxa | hxr
      · subst hxa
        have hlastmem : (b :: rest2).getLast (List.cons_ne_nil b rest2) ∈
            b :: rest2 := List.getLast_mem _
        exact (List.pairwise_cons.mp hs).1 _ hlastmem
      · exact ih (List.pairwise_cons.mp hs).2 (List.cons_ne_nil b rest2) hxr

/-- Helper: members of select_notifications come from the table and respect
the start bound. -/
theorem select_notifications_sound (table : List NotificationRow)
    (start limit : Nat) :
    ∀ e ∈ select_notifications table start limit,
      e ∈ table ∧ start ≤ e.notification_id := by
  intro e he
  have hes : e ∈ (table.filter
      (fun r => decide (start ≤ r.notification_id))).mergeSort
      (fun a b => decide (a.notification_id ≤ b.notification_id)) :=
    List.take_subset limit _ he
  have hef := (List.mergeSort_perm _ _).mem_iff.mp hes
  obtain ⟨het, hcond⟩ := List.mem_filter.mp hef
  exact ⟨het, of_decide_eq_true hcond⟩

/-- Helper: select_notifications is sorted ascending by notification id. -/
theorem select_notifications_sorted (table : List NotificationRow)
    (start limit : Nat) :
    List.Sorted (fun a b : NotificationRow =>
      a.notification_id ≤ b.notification_id)
      (select_notifications table start limit) := by
  have hsorted : List.Pairwise (fun a b : NotificationRow =>
      decide (a.notification_id ≤ b.notification_id) = true)
      ((table.filter (fun r => decide (start ≤ r.notification_id))).mergeSort
        (fun a b => decide (a.notification_id ≤ b.notification_id))) := by
    refine List.sorted_mergeSort ?_ ?_ _
    · intro a b c hab hbc
      exact decide_eq_true
        (le_trans (of_decide_eq_true hab) (of_decide_eq_true hbc))
    · intro a b
      rcases Nat.le_total a.notification_id b.notification_id with h | h <;>
        simp [h]
  exact (hsorted.sublist (List.take_sublist limit _)).imp
    (fun h => of_decide_eq_true h)

/-- Helper: the ids of the sorted filtered rows stay duplicate-free when the
table's ids are duplicate-free (the unique index invariant). -/
theorem filtered_sorted_ids_nodup (table : List NotificationRow) (start : Nat)
    (hids : (table.map (fun r => r.notification_id)).Nodup) :
    (((table.filter (fun r => decide (start ≤ r.notification_id))).mergeSort
      (fun a b => decide (a.notification_id ≤ b.notification_id))).map
      (fun r => r.notification_id)).Nodup := by
  have hsub : (table.filter
      (fun r => decide (start ≤ r.notification_id))).Sublist table :=
    List.filter_sublist table
  have hnd : ((table.filter (fun r => decide (start ≤ r.notification_id))).map
      (fun r => r.notification_id)).Nodup :=
    List.Nodup.sublist (hsub.map _) hids
  exact ((List.mergeSort_perm _ _).map _).nodup_iff.mpr hnd

/-- Claim C7: select_notifications returns exactly the committed
notifications with id >= start, ascending by id, capped at limit: members
come from the table and respect the bound, the result is sorted and no
longer than limit, any matching row left out is beyond the cap (every
returned id is smaller), and paging forward from one past the last returned
id never returns a previously returned id. -/
theorem select_notifications_spec (table : List NotificationRow)
    (start limit : Nat)
    (hids : (table.map (fun r => r.notification_id)).Nodup) :
    (∀ e ∈ select_notifications table start limit,
      e ∈ table ∧ start ≤ e.notification_id) ∧
    List.Sorted (fun a b : NotificationRow =>
      a.notification_id ≤ b.notification_id)
      (select_notifications table start limit) ∧
    (select_notifications table start limit).length ≤ limit ∧
    (∀ e ∈ table, start ≤ e.notification_id →
      e ∉ select_notifications table start limit →
      (select_notifications table start limit).length = limit ∧
      ∀ x ∈ select_notifications table start limit,
        x.notification_id < e.notification_id) ∧
    (∀ hne : select_notifications table start limit ≠ [],
      ∀ y ∈ select_notifications table
        (((select_notifications table start limit).getLast hne).notification_id
          + 1) limit,
      ∀ x ∈ select_notifications table start limit,
        x.notification_id < y.notification_id) := by
  refine ⟨select_notifications_sound table start limit,
    select_notifications_sorted table start limit, ?_, ?_, ?_⟩
  · simp [select_notifications]
  · intro e het hstart hnot
    have hef : e ∈ table.filter (fun r => decide (start ≤ r.notification_id)) :=
      List.mem_filter.mpr ⟨het, decide_eq_true hstart⟩
    have hes : e ∈ (table.filter
        (fun r => decide (start ≤ r.notification_id))).mergeSort
        (fun a b => decide (a.notification_id ≤ b.notification_id)) :=
      (List.mergeSort_perm _ _).mem_iff.mpr hef
    have hsplit := List.take_append_drop limit
      ((table.filter (fun r => decide (start ≤ r.notification_id))).mergeSort
        (fun a b => decide (a.notification_id ≤ b.notification_id)))
    have hedrop : e ∈ ((table.filter
        (fun r => decide (start ≤ r.notification_id))).mergeSort
        (fun a b => decide (a.notification_id ≤ b.notification_id))).drop
          limit := by
      rcases List.mem_append.mp (by rw [hsplit]; exact hes) with hl | hr
      · exact absurd hl hnot
      · exact hr
    have hdropne := List.ne_nil_of_mem hedrop
    have hlen : limit < ((table.filter
        (fun r => decide (start ≤ r.notification_id))).mergeSort
        (fun a b => decide (a.notification_id ≤ b.notification_id))).length := by
      by_contra hcon
      exact hdropne (List.drop_eq_nil_of_le (Nat.le_of_not_lt hcon))
    constructor
    · simpa [select_notifications] using Nat.min_eq_left (Nat.le_of_lt hlen)
    · intro x hx
      have hsorted : List.Pairwise (fun a b : NotificationRow =>
          decide (a.notification_id ≤ b.notification_id) = true)
          ((table.filter (fun r => decide (start ≤ r.notification_id))).mergeSort
            (fun a b => decide (a.notification_id ≤ b.notification_id))) := by
        refine List.sorted_mergeSort ?_ ?_ _
        · intro a b c hab hbc
          exact decide_eq_true
            (le_trans (of_decide_eq_true hab) (of_decide_eq_true hbc))
        · intro a b
          rcases Nat.le_total a.notification_id b.notification_id with h | h <;>
            simp [h]
      have hsorted2 := hsplit ▸ hsorted
      have hle : x.notification_id ≤ e.notification_id :=
        of_decide_eq_true ((List.pairwise_append.mp hsorted2).2.2 x hx e hedrop)
      have hnodup := filtered_sorted_ids_nodup table start hids
      rw [← hsplit, List.map_append] at hnodup
      have hdisj := (List.nodup_append.mp hnodup).2.2
      have hneq : x.notification_id ≠ e.notification_id := by
        intro heq
        exact hdisj (List.mem_map.mpr ⟨x, hx, rfl⟩)
          (by rw [heq]; exact List.mem_map.mpr ⟨e, hedrop, rfl⟩)
      exact Nat.lt_of_le_of_ne hle hneq
  · intro hne y hy x hx
    have hy2 := select_notifications_sound table
      (((select_notifications table start limit).getLast hne).notification_id
        + 1) limit y hy
    have hx2 := sorted_le_getLast (select_notifications table start limit)
      (select_notifications_sorted table start limit) hne x hx
    exact Nat.lt_of_le_of_lt hx2 (Nat.lt_of_succ_le hy2.2)

/-- Claim C7 witness: on a one-row table the returned row comes from the
table and respects the start bound. -/
theorem select_notifications_spec_witness :
    (⟨1, 1, "T", [], 1⟩ : NotificationRow) ∈
      [(⟨1, 1, "T", [], 1⟩ : NotificationRow)] ∧
    1 ≤ (⟨1, 1, "T", [], 1⟩ : NotificationRow).notification_id :=
  (select_notifications_spec [⟨1, 1, "T", [], 1⟩] 1 2 (by decide)).1
    ⟨1, 1, "T", [], 1⟩ (by simp [select_notifications])

/-- Helper: eventKeyTaken tests membership of the key in the table's key
column. -/
theorem eventKeyTaken_iff (events : List NotificationRow) (oid : Nat)
    (ver : Int) :
    eventKeyTaken events oid ver = true ↔ (oid, ver) ∈ events.map eventKey := by
  simp [eventKeyTaken, List.any_eq_true, List.mem_map, eventKey,
    Prod.ext_iff, and_assoc]

/-- Helper: inserting event rows never touches the tracking table. -/
theorem insertEventRows_tracking (batch : List StoredEvent) :
    ∀ db : DBState, (insertEventRows db batch).2.tracking = db.tracking := by
  induction batch with
  | nil => intro db; rfl
  | cons e rest ih =>
    intro db
    by_cases h : eventKeyTaken db.events e.originator_id e.originator_version
    · simp [insertEventRows, h]
    · simp [insertEventRows, h, ih]

/-- Helper: under the table's primary-key invariant, the batch insert
succeeds exactly when the table keys extended by the batch keys are free of
duplicates. -/
theorem insertEventRows_ok_iff (batch : List StoredEvent) :
    ∀ db : DBState, (db.events.map eventKey).Nodup →
      ((insertEventRows db batch).1 = none ↔
        (db.events.map eventKey ++ batch.map storedKey).Nodup) := by
  induction batch with
  | nil =>
    intro db hnd
    simpa [insertEventRows] using hnd
  | cons e rest ih =>
    intro db hnd
    by_cases h : eventKeyTaken db.events e.originator_id e.originator_version
    · have hk : storedKey e ∈ db.events.map eventKey := by
        have hmem := (eventKeyTaken_iff db.events e.originator_id
          e.originator_version).mp h
        simpa [storedKey] using hmem
      simp only [insertEventRows, if_pos h]
      constructor
      · intro habs
        exact absurd habs (by simp)
      · intro hnod
        exfalso
        exact (List.nodup_append.mp hnod).2.2 hk
          (by simp [List.mem_cons, storedKey])
    · have hknotin : storedKey e ∉ db.events.map eventKey := by
        intro hmem
        exact h ((eventKeyTaken_iff db.events e.originator_id
          e.originator_version).mpr (by simpa [storedKey] using hmem))
      simp only [insertEventRows, if_neg h]
      have hmap : (({ db with
          events := db.events ++
            [⟨e.originator_id, e.originator_version, e.topic, e.state,
              db.next_notification_id⟩],
          next_notification_id := db.next_notification_id + 1 } :
            DBState).events.map eventKey) =
          db.events.map eventKey ++ [storedKey e] := by
        simp [eventKey, storedKey]
      have hnd2 : (({ db with
          events := db.events ++
            [⟨e.originator_id, e.originator_version, e.topic, e.state,
              db.next_notification_id⟩],
          next_notification_id := db.next_notification_id + 1 } :
            DBState).events.map eventKey).Nodup := by
        rw [hmap]
        simp [List.nodup_append, hnd, hknotin]
      have hiter := ih _ hnd2
      rw [hiter, hmap, List.append_assoc, List.singleton_append]
      simp [storedKey]

/-- Helper: the only driver error the batch insert raises is the
uniqueness violation. -/
theorem insertEventRows_error (batch : List StoredEvent) :
    ∀ db : DBState, ∀ e, (insertEventRows db batch).1 = some e →
      e = PgError.uniqueViolation := by
  induction batch with
  | nil =>
    intro db e h
    simp [insertEventRows] at h
  | cons x rest ih =>
    intro db e h
    by_cases hk : eventKeyTaken db.events x.originator_id x.originator_version
    · simp [insertEventRows, hk] at h
      exact h.symm
    · simp only [insertEventRows, if_neg hk] at h
      exact ih _ e h

/-- Helper: a successful batch insert keeps every existing row and adds a
row carrying each batch event's data. -/
theorem insertEventRows_ok_events (batch : List StoredEvent) :
    ∀ db db1 : DBState, insertEventRows db batch = (none, db1) →
      (∀ x ∈ db.events, x ∈ db1.events) ∧
      (∀ e ∈ batch, ∃ row ∈ db1.events,
        row.originator_id = e.originator_id ∧
        row.originator_version = e.originator_version ∧
        row.topic = e.topic ∧ row.state = e.state) := by
  induction batch with
  | nil =>
    intro db db1 h
    simp [insertEventRows, Prod.ext_iff] at h
    exact ⟨fun x hx => h ▸ hx, by simp⟩
  | cons e rest ih =>
    intro db db1 h
    by_cases hk : eventKeyTaken db.events e.originator_id e.originator_version
    · simp [insertEventRows, hk, Prod.ext_iff] at h
    · simp only [insertEventRows, if_neg hk] at h
      obtain ⟨hmono, hall⟩ := ih _ db1 h
      refine ⟨fun x hx => hmono x (by simp [hx]), ?_⟩
      intro f hf
      rcases List.mem_cons.mp hf with hfe | hfr
      · subst hfe
        exact ⟨⟨f.originator_id, f.originator_version, f.topic, f.state,
          db.next_notification_id⟩, hmono _ (by simp), rfl, rfl, rfl, rfl⟩
      · exact hall f hfr

/-- Helper: the _insert_events body raises only the uniqueness violation. -/
theorem processInsertBody_error (db : DBState) (batch : List StoredEvent)
    (tracking : Option Tracking) :
    ∀ e, (processInsertBody db batch tracking).1 = some e →
      e = PgError.uniqueViolation := by
  intro e h
  cases hrows : insertEventRows db batch with
  | mk err db1 =>
    cases err with
    | some e2 =>
      have he2 := insertEventRows_error batch db e2 (by rw [hrows])
      subst he2
      simp [processInsertBody, hrows] at h
      exact h.symm
    | none =>
      cases tracking with
      | none => simp [processInsertBody, hrows] at h
      | some t =>
        by_cases hdup : trackingKeyTaken db1.tracking t.application_name
          t.notification_id
        · simp [processInsertBody, hrows, hdup] at h
          exact h.symm
        · simp [processInsertBody, hrows, hdup] at h

/-- Helper: under the primary-key invariant, the _insert_events body
succeeds exactly when neither uniqueness invariant is violated. -/
theorem processInsertBody_ok_iff (db : DBState) (batch : List StoredEvent)
    (tracking : Option Tracking)
    (hnd : (db.events.map eventKey).Nodup) :
    (processInsertBody db batch tracking).1 = none ↔
      ((db.events.map eventKey ++ batch.map storedKey).Nodup ∧
        trackingConflicts db tracking = false) := by
  cases hrows : insertEventRows db batch with
  | mk err db1 =>
    cases err with
    | some e =>
      have hnotnodup : ¬ (db.events.map eventKey ++ batch.map storedKey).Nodup := by
        intro hn
        have hok := (insertEventRows_ok_iff batch db hnd).mpr hn
        rw [hrows] at hok
        exact absurd hok (by simp)
      simp [processInsertBody, hrows, hnotnodup]
    | none =>
      have hnodup : (db.events.map eventKey ++ batch.map storedKey).Nodup :=
        (insertEventRows_ok_iff batch db hnd).mp (by rw [hrows])
      have htrack : db1.tracking = db.tracking := by
        have hpres := insertEventRows_tracking batch db
        rw [hrows] at hpres
        exact hpres
      cases tracking with
      | none => simp [processInsertBody, hrows, trackingConflicts, hnodup]
      | some t =>
        by_cases hdup : trackingKeyTaken db1.tracking t.application_name
          t.notification_id
        · have hdup2 : trackingKeyTaken db.tracking t.application_name
              t.notification_id = true := by rw [← htrack]; exact hdup
          simp [processInsertBody, hrows, hdup, trackingConflicts, hdup2]
        · have hdup2 : trackingKeyTaken db.tracking t.application_name
              t.notification_id = false := by
            rw [← htrack]
            exact Bool.eq_false_iff.mpr hdup
          simp [processInsertBody, hrows, hdup, trackingConflicts, hdup2,
            hnodup]

/-- Claim C1: when a tracking pair is supplied, the tracking row is
inserted in the same transaction as the event batch: on success both the
tracking row and a row for every batch event are committed together, and
when the tracking insert collides with an existing
(application_name, notification_id) pair the whole transaction rolls back
with a conflict error, so the events and tracking tables are unchanged and
subsequent reads return exactly what they returned before. -/
theorem process_insert_tracking_atomic (st : SysState) (tid : Nat)
    (batch : List StoredEvent) (t : Tracking)
    (hdup : trackingKeyTaken st.db.tracking t.application_name
      t.notification_id = true) :
    (∀ st2 : SysState, ∀ tid2 batch2, ∀ t2 : Tracking, ∀ st1,
      insert_events st2 tid2 batch2 (some t2) false = (Except.ok (), st1) →
      (⟨t2.application_name, t2.notification_id⟩ : TrackingRow) ∈
        st1.db.tracking ∧
      ∀ e ∈ batch2, ∃ row ∈ st1.db.events,
        row.originator_id = e.originator_id ∧
        row.originator_version = e.originator_version ∧
        row.topic = e.topic ∧ row.state = e.state) ∧
    ((insert_events st tid batch (some t) false).1 =
      Except.error ESError.conflict ∧
    (insert_events st tid batch (some t) false).2.db.events = st.db.events ∧
    (insert_events st tid batch (some t) false).2.db.tracking =
      st.db.tracking ∧
    ∀ s l, select_notifications
        (insert_events st tid batch (some t) false).2.db.events s l =
      select_notifications st.db.events s l) := by
  constructor
  · intro st2 tid2 batch2 t2 st1 hok
    cases hrows : insertEventRows st2.db batch2 with
    | mk err db1 =>
      cases err with
      | some e =>
        have he := insertEventRows_error batch2 st2.db e (by rw [hrows])
        subst he
        simp [insert_events, processInsertBody, hrows, Prod.ext_iff] at hok
      | none =>
        by_cases hd2 : trackingKeyTaken db1.tracking t2.application_name
          t2.notification_id
        · simp [insert_events, processInsertBody, hrows, hd2,
            Prod.ext_iff] at hok
        · have hst1 : st1 = { st2 with db :=
              { db1 with tracking := db1.tracking ++
                [⟨t2.application_name, t2.notification_id⟩] } } := by
            simp [insert_events, processInsertBody, hrows, hd2,
              Prod.ext_iff] at hok
            exact hok.symm
          subst hst1
          obtain ⟨hmono, hall⟩ := insertEventRows_ok_events batch2 st2.db db1
            hrows
          exact ⟨by simp, fun e he => hall e he⟩
  · cases hrows : insertEventRows st.db batch with
    | mk err db1 =>
      cases err with
      | some e =>
        have he := insertEventRows_error batch st.db e (by rw [hrows])
        subst he
        refine ⟨?_, ?_, ?_, ?_⟩ <;>
          simp [insert_events, processInsertBody, hrows, rollbackTo]
      | none =>
        have htrack : db1.tracking = st.db.tracking := by
          have hpres := insertEventRows_tracking batch st.db
          rw [hrows] at hpres
          exact hpres
        have hd : trackingKeyTaken db1.tracking t.application_name
            t.notification_id = true := by rw [htrack]; exact hdup
        refine ⟨?_, ?_, ?_, ?_⟩ <;>
          simp [insert_events, processInsertBody, hrows, hd, rollbackTo]

/-- Claim C1 witness: a one-row tracking table collides with the same pair
again; the insert reports a conflict and the events table is unchanged. -/
theorem process_insert_tracking_atomic_witness :
    (insert_events ⟨⟨[], [⟨"app", 1⟩], 1⟩, []⟩ 0
      [⟨5, 1, "T", []⟩] (some ⟨"app", 1⟩) false).1 =
      Except.error ESError.conflict ∧
    (insert_events ⟨⟨[], [⟨"app", 1⟩], 1⟩, []⟩ 0
      [⟨5, 1, "T", []⟩] (some ⟨"app", 1⟩) false).2.db.events = [] :=
  ⟨((process_insert_tracking_atomic ⟨⟨[], [⟨"app", 1⟩], 1⟩, []⟩ 0
      [⟨5, 1, "T", []⟩] ⟨"app", 1⟩ (by decide)).2).1,
    ((process_insert_tracking_atomic ⟨⟨[], [⟨"app", 1⟩], 1⟩, []⟩ 0
      [⟨5, 1, "T", []⟩] ⟨"app", 1⟩ (by decide)).2).2.1⟩

/-- Claim C2: under the primary-key invariant on the stored table,
insert_events raises the conflict error exactly when a batch row or the
supplied tracking pair violates a uniqueness invariant; any other low-level
failure surfaces as the operational error, and only on that path is the
calling thread's connection closed and discarded so that the next
acquisition creates a fresh session (after a conflict the connection map is
untouched). -/
theorem insert_events_error_spec (st : SysState) (tid : Nat)
    (batch : List StoredEvent) (tracking : Option Tracking)
    (hpk : (st.db.events.map eventKey).Nodup) :
    ((insert_events st tid batch tracking true).1 =
        Except.error ESError.operational ∧
      (insert_events st tid batch tracking true).2.conns =
        close_connection st.conns tid ∧
      lookupConn (insert_events st tid batch tracking true).2.conns tid =
        none ∧
      ∀ pp pk fs, (transactionAcquire
          (insert_events st tid batch tracking true).2.conns tid pp pk fs).1 =
        ⟨fs, false, false, false⟩) ∧
    ((insert_events st tid batch tracking false).1 =
        Except.error ESError.conflict ↔
      (¬ (st.db.events.map eventKey ++ batch.map storedKey).Nodup ∨
        trackingConflicts st.db tracking = true)) ∧
    (insert_events st tid batch tracking false).1 ≠
      Except.error ESError.operational ∧
    (insert_events st tid batch tracking false).2.conns = st.conns ∧
    ((insert_events st tid batch tracking false).1 = Except.ok () ↔
      ((st.db.events.map eventKey ++ batch.map storedKey).Nodup ∧
        trackingConflicts st.db tracking = false)) := by
  have hfault : insert_events st tid batch tracking true =
      (Except.error ESError.operational,
        { db := rollbackTo st.db st.db,
          conns := close_connection st.conns tid }) := rfl
  refine ⟨?_, ?_⟩
  · refine ⟨by rw [hfault], by rw [hfault], ?_, ?_⟩
    · rw [hfault]
      exact lookupConn_close_connection st.conns tid
    · intro pp pk fs
      rw [hfault]
      simp [transactionAcquire, lookupConn_close_connection st.conns tid,
        _create_connection]
  · cases hbody : processInsertBody st.db batch tracking with
    | mk err db1 =>
      cases err with
      | none =>
        have hok := (processInsertBody_ok_iff st.db batch tracking hpk).mp
          (by rw [hbody])
        refine ⟨?_, ?_, ?_, ?_⟩
        · simp only [insert_events, if_neg (by simp : ¬False), hbody]
          constructor
          · intro habs
            exact absurd habs (by simp [insert_events, hbody])
          · intro hviol
            rcases hviol with hnod | htc
            · exact absurd hok.1 hnod
            · rw [hok.2] at htc
              exact absurd htc (by simp)
        · simp [insert_events, hbody]
        · simp [insert_events, hbody]
        · simp [insert_events, hbody, hok.1, hok.2]
      | some e =>
        have he := processInsertBody_error st.db batch tracking e
          (by rw [hbody])
        subst he
        have hnotok : ¬ ((st.db.events.map eventKey ++
            batch.map storedKey).Nodup ∧
            trackingConflicts st.db tracking = false) := by
          intro hn
          have hcontra := (processInsertBody_ok_iff st.db batch tracking
            hpk).mpr hn
          rw [hbody] at hcontra
          exact absurd hcontra (by simp)
        refine ⟨?_, ?_, ?_, ?_⟩
        · simp only [insert_events, hbody]
          have hviol : ¬ (st.db.events.map eventKey ++
              batch.map storedKey).Nodup ∨
              trackingConflicts st.db tracking = true := by
            rcases not_and_or.mp hnotok with hl | hr
            · exact Or.inl hl
            · exact Or.inr (Bool.not_eq_false _ |>.mp hr)
          simp [hviol]
        · simp [insert_events, hbody]
        · simp [insert_events, hbody]
        · simp only [insert_events, hbody]
          constructor
          · intro habs
            exact absurd habs (by simp)
          · intro hn
            exact absurd hn hnotok

/-- Claim C2 witness: inserting a batch that duplicates the stored key
(7, 1) on a clean state reports a conflict, while an injected low-level
fault reports an operational error. -/
theorem insert_events_error_spec_witness :
    (insert_events ⟨⟨[⟨7, 1, "T", [], 1⟩], [], 2⟩, [(0, ⟨3, true, false,
        false⟩)]⟩ 0 [⟨7, 1, "U", []⟩] none false).1 =
      Except.error ESError.conflict ∧
    (insert_events ⟨⟨[⟨7, 1, "T", [], 1⟩], [], 2⟩, [(0, ⟨3, true, false,
        false⟩)]⟩ 0 [⟨7, 1, "U", []⟩] none true).1 =
      Except.error ESError.operational :=
  ⟨((insert_events_error_spec ⟨⟨[⟨7, 1, "T", [], 1⟩], [], 2⟩,
      [(0, ⟨3, true, false, false⟩)]⟩ 0 [⟨7, 1, "U", []⟩] none
      (by decide)).2).1.mpr (Or.inl (by decide)),
    (insert_events_error_spec ⟨⟨[⟨7, 1, "T", [], 1⟩], [], 2⟩,
      [(0, ⟨3, true, false, false⟩)]⟩ 0 [⟨7, 1, "U", []⟩] none
      (by decide)).1.1⟩

end EventSourcing
